import Mathlib

set_option linter.unnecessarySeqFocus false

/-!
Shallow embedding of the tui-revolt terminal chat client
(src/src/lib.rs, src/src/util/event.rs) and proofs about its
application state machine, startup sequence, and event producers.

Identifiers (ULID strings in the source) are modeled as `String`;
the mutable Rust `String` input buffer is modeled as its character
sequence (`List Char`), so `push` is append and `pop` is `dropLast`.
External collaborators (the HTTP transport and the entity cache) are
modeled as explicit function parameters, and their side effects
(sending a message) as an explicit effect list returned by `update`.
-/

namespace TuiRevolt

/-- Channel identifier (a ULID string in the source). -/
abbrev ChannelId := String

/-- Server identifier. -/
abbrev ServerId := String

/-- User identifier. -/
abbrev UserId := String

/-- Opaque error type standing for `robespierre::Error`. -/
abbrev RError := String

/-- termion key events as consumed by `update` in src/src/lib.rs.
The source matches only `Char`, `Backspace` and `Esc` explicitly;
every other termion variant falls into its wildcard arms, which we
keep as distinct constructors so the wildcard is honest. -/
inductive Key
  | char (c : Char)
  | backspace
  | esc
  | left
  | right
  | up
  | down
  | delete
  | ctrl (c : Char)
  | alt (c : Char)
  | fKey (n : Nat)
  | nullKey
  deriving DecidableEq

/-- The fields of `robespierre_models::channels::Message` that the
program reads: the channel it was posted to, its author and content. -/
structure Message where
  id : String
  channel : ChannelId
  author : UserId
  content : String
  deriving DecidableEq

/-- Resolved author display identity (`UserOptMember` in the source). -/
structure UserOptMember where
  displayName : String
  deriving DecidableEq

/-- The fields of `robespierre_models::servers::Server` the program
reads: its id, name, and the list of channel ids it carries. -/
structure Server where
  id : ServerId
  name : String
  channels : List ChannelId
  deriving DecidableEq

/-- A channel, abstracted to the two accessors the program uses:
`Channel::id()` and `Channel::server_id()` (the latter is `None` for
direct/group channels). -/
structure Channel where
  id : ChannelId
  serverId : Option ServerId
  name : String
  deriving DecidableEq

/-- The `Ready` event payload; the program reads only `servers`. -/
structure ReadyEvent where
  servers : List Server
  deriving DecidableEq

/-- `ServerToClientEvent`: the source matches `Message` and `Ready`
explicitly and ignores every other variant through a wildcard arm,
kept here as `otherEvent`. -/
inductive ServerToClientEvent
  | message (message : Message)
  | ready (event : ReadyEvent)
  | otherEvent
  deriving DecidableEq

/-- The aggregated event type of src/src/util/event.rs. -/
inductive Event
  | input (k : Key)
  | robespierreEvent (e : ServerToClientEvent)
  | tick
  deriving DecidableEq

/-- `InputMode` from src/src/lib.rs. -/
inductive InputMode
  | normal
  | editing
  deriving DecidableEq

/-- The fields of `AppStateInternal::ServerChannel`. -/
structure ServerChannelState where
  input : List Char
  input_mode : InputMode
  messages : List (Message × UserOptMember)
  server : Server
  server_channels : List Channel
  current_channel : Channel
  deriving DecidableEq

/-- `AppStateInternal`: a one-variant enum in the source. -/
inductive AppStateInternal
  | serverChannel (s : ServerChannelState)
  deriving DecidableEq

/-- Projection to the unique variant's payload. -/
def AppStateInternal.sc : AppStateInternal → ServerChannelState
  | .serverChannel s => s

/-- `AppState`: the internal state plus the optional server list.
The `ctx` field (cache/http handles) is modeled by passing the
collaborators to `update` explicitly. -/
structure AppState where
  state : AppStateInternal
  server_list : Option (List Server)
  deriving DecidableEq

/-- The `Action` returned by `update`: `Break` terminates the
interaction loop (the spec calls it Terminate), `None` continues
(the spec calls it Continue). -/
inductive Action
  | Break
  | None
  deriving DecidableEq

/-- Outbound side effects issued by `update` through the transport
collaborator. -/
inductive SideEffect
  | sendMessage (channel : ChannelId) (content : List Char)
  deriving DecidableEq

/-- The state machine `update` of src/src/lib.rs lines 312-377.
`resolve` stands for the cache collaborator's author-identity lookup
(`message.author_user_opt_member(ctx)`, unwrapped in the source);
`ev` is the value of `events.next().await` (`none` when the merged
queue has closed, in which case the source falls through to
`Action::None` without touching the state). The returned effect list
records the send-message requests issued to the transport. -/
def update (resolve : Message → UserOptMember) (app : AppState) (ev : Option Event) :
    AppState × Action × List SideEffect :=
  match ev with
  | none => (app, .None, [])
  | some ev =>
    match app.state with
    | .serverChannel s =>
      match ev with
      | .input key =>
        match s.input_mode with
        | .normal =>
          match key with
          | .char c =>
            if c = 'e' then
              ({ app with state := .serverChannel { s with input_mode := .editing } },
                .None, [])
            else if c = 'q' then
              (app, .Break, [])
            else
              (app, .None, [])
          | _ => (app, .None, [])
        | .editing =>
          match key with
          | .char c =>
            if c = '\n' then
              ({ app with state := .serverChannel { s with input := [] } },
                .None, [.sendMessage s.current_channel.id s.input])
            else
              ({ app with state := .serverChannel { s with input := s.input ++ [c] } },
                .None, [])
          | .backspace =>
            ({ app with state := .serverChannel { s with input := s.input.dropLast } },
              .None, [])
          | .esc =>
            ({ app with state := .serverChannel { s with input_mode := .normal } },
              .None, [])
          | _ => (app, .None, [])
      | .robespierreEvent rev =>
        match rev with
        | .message m =>
          if s.current_channel.id = m.channel then
            ({ app with
                state := .serverChannel { s with messages := s.messages ++ [(m, resolve m)] } },
              .None, [])
          else
            (app, .None, [])
        | .ready e =>
          ({ app with server_list := some e.servers }, .None, [])
        | .otherEvent => (app, .None, [])
      | .tick => (app, .None, [])

/-- Folding `update` over a sequence of delivered events (the main
interaction loop), keeping only the state. -/
def runEvents (resolve : Message → UserOptMember) (app : AppState) : List Event → AppState
  | [] => app
  | e :: rest => runEvents resolve (update resolve app (some e)).1 rest

/-- The entity-resolution collaborator used by `AppState::new`:
`channel_id.channel(&ctx)` and `server_id.server(&ctx)`, each of
which may fail with a `robespierre::Error`. -/
structure FetchEnv where
  fetchChannel : ChannelId → Except RError Channel
  fetchServer : ServerId → Except RError Server

/-- `OpenAt` from src/src/lib.rs. -/
inductive OpenAt
  | channel (id : ChannelId)
  deriving DecidableEq

/-- Outcome of `AppState::new`: a built state, a propagated
`robespierre::Error` (the `?` operator), or the diverging `todo!()`
hit when the target channel has no server. -/
inductive StartupResult
  | ok (s : AppState)
  | err (e : RError)
  | panicTodo
  deriving DecidableEq

/-- The sequential per-channel prefetch loop of `AppState::new`
(src/src/lib.rs lines 103-107): resolve each listed channel id in
list order, failing the whole loop on the first fetch error. -/
def resolveChannels (env : FetchEnv) : List ChannelId → Except RError (List Channel)
  | [] => .ok []
  | cid :: rest =>
    match env.fetchChannel cid with
    | .error e => .error e
    | .ok c =>
      match resolveChannels env rest with
      | .error e => .error e
      | .ok cs => .ok (c :: cs)

/-- `AppState::new` (src/src/lib.rs lines 88-131): resolve the target
channel, derive its server id, resolve the server, prefetch all of its
channels, and assemble the initial state with empty input, `Normal`
mode, empty message log and `server_list = None`. -/
def AppState.new (env : FetchEnv) (openAt : OpenAt) : StartupResult :=
  match openAt with
  | .channel channel_id =>
    match env.fetchChannel channel_id with
    | .error e => .err e
    | .ok current_channel =>
      match current_channel.serverId with
      | some server_id =>
        match env.fetchServer server_id with
        | .error e => .err e
        | .ok server =>
          match resolveChannels env server.channels with
          | .error e => .err e
          | .ok server_channels =>
            .ok { state := .serverChannel
                    { input := []
                      input_mode := .normal
                      messages := []
                      server := server
                      server_channels := server_channels
                      current_channel := current_channel }
                  server_list := none }
      | none => .panicTodo

/-- One observable step of the tick producer task: pushing a `Tick`
into the merged queue, or sleeping for the tick rate (milliseconds). -/
inductive TickAction
  | send
  | sleep (ms : Nat)
  deriving DecidableEq

/-- Trace of the first `fuel` iterations of the tick producer loop
(src/src/util/event.rs lines 63-75): each iteration sends `Tick`
(breaking out if the send fails, which `sendOk` decides per
iteration) and then sleeps `tickRate`. -/
def tickTrace (tickRate : Nat) (sendOk : Nat → Bool) : Nat → Nat → List TickAction
  | _, 0 => []
  | i, fuel + 1 =>
    if sendOk i then
      .send :: .sleep tickRate :: tickTrace tickRate sendOk (i + 1) fuel
    else
      []

/-- Modelled from the claim wording for comparison with `tickTrace`:
a loop whose every iteration first sleeps `tickRate` and then pushes
one `Tick`. -/
def specTickTrace (tickRate : Nat) (sendOk : Nat → Bool) : Nat → Nat → List TickAction
  | _, 0 => []
  | i, fuel + 1 =>
    if sendOk i then
      .sleep tickRate :: .send :: specTickTrace tickRate sendOk (i + 1) fuel
    else
      [.sleep tickRate]

/-- A send-success predicate that always succeeds. -/
def alwaysOk : Nat → Bool := fun _ => true

/-- A send-success predicate that always fails. -/
def neverOk : Nat → Bool := fun _ => false

/-- One observable step of the network producer task: committing a
server event to the shared cache, or pushing it into the merged
queue. -/
inductive NetAction
  | commit (e : ServerToClientEvent)
  | push (e : ServerToClientEvent)
  deriving DecidableEq

/-- Trace of the network producer loop (src/src/util/event.rs lines
89-105): `conn` is the sequence of `connection.next()` results; each
successful pull is committed to the cache and then pushed into the
queue (breaking out on a connection error or, per `sendOk`, a failed
send). -/
def netTrace (sendOk : Nat → Bool) :
    Nat → List (Except RError ServerToClientEvent) → List NetAction
  | _, [] => []
  | _, .error _ :: _ => []
  | i, .ok e :: rest =>
    NetAction.commit e ::
      (if sendOk i then NetAction.push e :: netTrace sendOk (i + 1) rest else [])

/-! Concrete fixtures used to instantiate the theorems below. -/

/-- A concrete identity resolver (cache collaborator). -/
def wResolve : Message → UserOptMember := fun m => ⟨m.author⟩

/-- A concrete channel living on server `s1`. -/
def wChannel : Channel := ⟨"c1", some "s1", "general"⟩

/-- A second concrete channel on the same server. -/
def wChannel2 : Channel := ⟨"c2", some "s1", "random"⟩

/-- A concrete server listing the two channels above. -/
def wServer : Server := ⟨"s1", "srv", ["c1", "c2"]⟩

/-- A concrete `ServerChannel` state in `Normal` mode. -/
def wSC : ServerChannelState :=
  ⟨['h'], .normal, [], wServer, [wChannel, wChannel2], wChannel⟩

/-- A concrete message posted to channel `c1`. -/
def wMsg : Message := ⟨"m1", "c1", "u1", "hi"⟩

/-- A concrete fetch environment resolving exactly the ids above. -/
def wEnv : FetchEnv where
  fetchChannel := fun cid =>
    if cid = "c1" then .ok wChannel
    else if cid = "c2" then .ok wChannel2
    else .error "unknown channel"
  fetchServer := fun sid =>
    if sid = "s1" then .ok wServer else .error "unknown server"

/-- C1: in `Normal` mode, `update` transitions or terminates only on
the keys `'e'` and `'q'`: `'e'` switches the input mode to `Editing`,
`'q'` returns the `Break` (Terminate) action with the state
unchanged, and every other key leaves the whole application state
unchanged and returns `None` (Continue) with no side effect. -/
theorem normal_mode_keys (resolve : Message → UserOptMember)
    (sc : ServerChannelState) (sl : Option (List Server)) (key : Key)
    (hmode : sc.input_mode = InputMode.normal) :
    update resolve ⟨.serverChannel sc, sl⟩ (some (.input (.char 'e'))) =
      (⟨.serverChannel { sc with input_mode := .editing }, sl⟩, Action.None, []) ∧
    update resolve ⟨.serverChannel sc, sl⟩ (some (.input (.char 'q'))) =
      (⟨.serverChannel sc, sl⟩, Action.Break, []) ∧
    (key ≠ .char 'e' → key ≠ .char 'q' →
      update resolve ⟨.serverChannel sc, sl⟩ (some (.input key)) =
        (⟨.serverChannel sc, sl⟩, Action.None, [])) := by
  refine ⟨by simp [update, hmode], by simp [update, hmode], ?_⟩
  intro he hq
  cases key <;> simp_all [update]

/-- Witness for `normal_mode_keys`: the Left arrow key in `Normal`
mode is a no-op. -/
theorem normal_mode_keys_witness :
    update wResolve ⟨.serverChannel wSC, none⟩ (some (.input Key.left)) =
      (⟨.serverChannel wSC, none⟩, Action.None, []) :=
  (normal_mode_keys wResolve wSC none Key.left rfl).2.2
    (by decide) (by decide)

/-- C2: in `Editing` mode, Enter (`'\n'`) empties the input buffer,
issues exactly one send-message request carrying the pre-Enter buffer
content addressed to the current channel's id, and leaves the input
mode `Editing`. -/
theorem editing_enter_sends (resolve : Message → UserOptMember)
    (inp : List Char) (msgs : List (Message × UserOptMember))
    (srv : Server) (chans : List Channel) (cur : Channel)
    (sl : Option (List Server)) :
    update resolve ⟨.serverChannel ⟨inp, .editing, msgs, srv, chans, cur⟩, sl⟩
        (some (.input (.char '\n'))) =
      (⟨.serverChannel ⟨[], .editing, msgs, srv, chans, cur⟩, sl⟩, Action.None,
        [SideEffect.sendMessage cur.id inp]) := by
  simp [update]

/-- C3: in `Editing` mode, an ordinary character is appended to the
input buffer, Backspace drops the buffer's last character (a no-op on
the empty buffer), and Escape returns to `Normal` mode with the
buffer preserved. -/
theorem editing_edit_keys (resolve : Message → UserOptMember)
    (inp : List Char) (msgs : List (Message × UserOptMember))
    (srv : Server) (chans : List Channel) (cur : Channel)
    (sl : Option (List Server)) (c : Char) :
    (c ≠ '\n' →
      update resolve ⟨.serverChannel ⟨inp, .editing, msgs, srv, chans, cur⟩, sl⟩
          (some (.input (.char c))) =
        (⟨.serverChannel ⟨inp ++ [c], .editing, msgs, srv, chans, cur⟩, sl⟩,
          Action.None, [])) ∧
    update resolve ⟨.serverChannel ⟨inp, .editing, msgs, srv, chans, cur⟩, sl⟩
        (some (.input .backspace)) =
      (⟨.serverChannel ⟨inp.dropLast, .editing, msgs, srv, chans, cur⟩, sl⟩,
        Action.None, []) ∧
    (inp = [] →
      update resolve ⟨.serverChannel ⟨inp, .editing, msgs, srv, chans, cur⟩, sl⟩
          (some (.input .backspace)) =
        (⟨.serverChannel ⟨inp, .editing, msgs, srv, chans, cur⟩, sl⟩,
          Action.None, [])) ∧
    update resolve ⟨.serverChannel ⟨inp, .editing, msgs, srv, chans, cur⟩, sl⟩
        (some (.input .esc)) =
      (⟨.serverChannel ⟨inp, .normal, msgs, srv, chans, cur⟩, sl⟩,
        Action.None, []) := by
  refine ⟨fun h => by simp [update, h], by simp [update], fun h => by simp [update, h],
    by simp [update]⟩

/-- Witness for `editing_edit_keys`: typing `'i'` after `"h"` in
`Editing` mode yields the buffer `"hi"`. -/
theorem editing_edit_keys_witness :
    update wResolve
        ⟨.serverChannel ⟨['h'], .editing, [], wServer, [wChannel, wChannel2], wChannel⟩,
          none⟩
        (some (.input (Key.char 'i'))) =
      (⟨.serverChannel
          ⟨['h', 'i'], .editing, [], wServer, [wChannel, wChannel2], wChannel⟩, none⟩,
        Action.None, []) :=
  (editing_edit_keys wResolve ['h'] [] wServer [wChannel, wChannel2] wChannel none 'i').1
    (by decide)

/-- C4: an incoming `Message` server event is appended to the message
log, paired with the resolved author identity, exactly when its
channel equals the current channel's id (log length grows by one);
a message for any other channel leaves the whole state unchanged. -/
theorem message_event_append (resolve : Message → UserOptMember)
    (sc : ServerChannelState) (sl : Option (List Server)) (m : Message) :
    (sc.current_channel.id = m.channel →
      update resolve ⟨.serverChannel sc, sl⟩ (some (.robespierreEvent (.message m))) =
        (⟨.serverChannel { sc with messages := sc.messages ++ [(m, resolve m)] }, sl⟩,
          Action.None, []) ∧
      ((update resolve ⟨.serverChannel sc, sl⟩
          (some (.robespierreEvent (.message m)))).1.state.sc).messages.length =
        sc.messages.length + 1) ∧
    (sc.current_channel.id ≠ m.channel →
      update resolve ⟨.serverChannel sc, sl⟩ (some (.robespierreEvent (.message m))) =
        (⟨.serverChannel sc, sl⟩, Action.None, [])) := by
  constructor
  · intro h
    constructor
    · simp [update, h]
    · simp [update, h, AppStateInternal.sc]
  · intro h
    simp [update, h]

/-- Witness for `message_event_append`: a message for channel `c1`
while `c1` is current gets appended. -/
theorem message_event_append_witness :
    update wResolve ⟨.serverChannel wSC, none⟩
        (some (.robespierreEvent (.message wMsg))) =
      (⟨.serverChannel { wSC with messages := wSC.messages ++ [(wMsg, wResolve wMsg)] },
          none⟩, Action.None, []) :=
  ((message_event_append wResolve wSC none wMsg).1 rfl).1

/-- Helper: no branch of `update` ever turns a populated
`server_list` back into `none`. -/
theorem update_keeps_server_list_isSome (resolve : Message → UserOptMember)
    (app : AppState) (ev : Option Event)
    (h : app.server_list.isSome = true) :
    ((update resolve app ev).1).server_list.isSome = true := by
  rcases app with ⟨st, sl⟩
  rcases st with ⟨⟨inp, mode, msgs, srv, chans, cur⟩⟩
  cases ev with
  | none => simpa [update] using h
  | some e =>
    cases e with
    | input k =>
      cases mode <;> cases k <;> simp [update] <;>
        (try split_ifs) <;> simp_all
    | robespierreEvent r =>
      cases r <;> simp [update] <;> (try split_ifs) <;> simp_all
    | tick => simpa [update] using h

/-- C5: the server list is `None` in the state built by
`AppState::new`; any `Ready` event unconditionally overwrites it with
`Some` of the event's server list (last-write-wins); and over any
event sequence, once it is `Some` it never reverts to `None`. -/
theorem server_list_lifecycle (resolve : Message → UserOptMember) (app : AppState) :
    (∀ (env : FetchEnv) (oa : OpenAt) (s : AppState),
      AppState.new env oa = .ok s → s.server_list = none) ∧
    (∀ e : ReadyEvent,
      ((update resolve app (some (.robespierreEvent (.ready e)))).1).server_list =
        some e.servers) ∧
    (∀ evs : List Event, app.server_list.isSome = true →
      ((runEvents resolve app evs).server_list).isSome = true) := by
  refine ⟨?_, ?_, ?_⟩
  · intro env oa s h
    cases oa with
    | channel cid =>
      unfold AppState.new at h
      repeat' split at h
      all_goals simp_all
      exact h.symm ▸ rfl
  · rcases app with ⟨st, sl⟩
    rcases st with ⟨s⟩
    intro e
    simp [update]
  · intro evs
    induction evs generalizing app with
    | nil => intro h; simpa [runEvents] using h
    | cons e rest ih =>
      intro h
      have hstep := update_keeps_server_list_isSome resolve app (some e) h
      simpa [runEvents] using ih _ hstep

/-- The state `AppState.new wEnv` builds when opening channel `c1`. -/
def wApp0 : AppState :=
  ⟨.serverChannel ⟨[], .normal, [], wServer, [wChannel, wChannel2], wChannel⟩, none⟩

/-- Witness for `server_list_lifecycle`: the concrete startup state
has no server list, and a populated server list survives a `Tick`. -/
theorem server_list_lifecycle_witness :
    wApp0.server_list = none ∧
    ((runEvents wResolve ⟨.serverChannel wSC, some [wServer]⟩
        [Event.tick]).server_list).isSome = true :=
  ⟨(server_list_lifecycle wResolve wApp0).1 wEnv (.channel "c1") wApp0 rfl,
   (server_list_lifecycle wResolve
      ⟨.serverChannel wSC, some [wServer]⟩).2.2 [Event.tick] rfl⟩

/-- C9: in `Editing` mode `update` never returns the `Break`
(Terminate) action, whatever the event; in particular `'q'` is
ordinary text appended to the input buffer, so the loop is only
terminable from `Normal` mode. -/
theorem editing_never_breaks (resolve : Message → UserOptMember)
    (inp : List Char) (msgs : List (Message × UserOptMember))
    (srv : Server) (chans : List Channel) (cur : Channel)
    (sl : Option (List Server)) (ev : Option Event) :
    (update resolve ⟨.serverChannel ⟨inp, .editing, msgs, srv, chans, cur⟩, sl⟩
        ev).2.1 ≠ Action.Break ∧
    update resolve ⟨.serverChannel ⟨inp, .editing, msgs, srv, chans, cur⟩, sl⟩
        (some (.input (.char 'q'))) =
      (⟨.serverChannel ⟨inp ++ ['q'], .editing, msgs, srv, chans, cur⟩, sl⟩,
        Action.None, []) := by
  constructor
  · cases ev with
    | none => simp [update]
    | some e =>
      cases e with
      | input k => cases k <;> simp [update] <;> (try split_ifs) <;> simp
      | robespierreEvent r =>
        cases r <;> simp [update] <;> (try split_ifs) <;> simp
      | tick => simp [update]
  · simp [update]

/-- C10: no event touches the channel context: `update` preserves the
`server`, `server_channels` and `current_channel` fields for every
event. -/
theorem update_preserves_channel_context (resolve : Message → UserOptMember)
    (sc : ServerChannelState) (sl : Option (List Server)) (ev : Option Event) :
    ((update resolve ⟨.serverChannel sc, sl⟩ ev).1.state.sc).server = sc.server ∧
    ((update resolve ⟨.serverChannel sc, sl⟩ ev).1.state.sc).server_channels =
      sc.server_channels ∧
    ((update resolve ⟨.serverChannel sc, sl⟩ ev).1.state.sc).current_channel =
      sc.current_channel := by
  rcases sc with ⟨inp, mode, msgs, srv, chans, cur⟩
  cases ev with
  | none => simp [update, AppStateInternal.sc]
  | some e =>
    cases e with
    | input k =>
      cases mode <;> cases k <;> simp [update, AppStateInternal.sc] <;>
        (try split_ifs) <;> simp [AppStateInternal.sc]
    | robespierreEvent r =>
      cases r <;> simp [update, AppStateInternal.sc] <;>
        (try split_ifs) <;> simp [AppStateInternal.sc]
    | tick => simp [update, AppStateInternal.sc]

/-- Counterexample for C6: with one iteration and a succeeding send,
the code's tick loop pushes `Tick` first and sleeps afterwards, the
opposite of the claimed sleep-then-push order, so a `Tick` is emitted
before the first `tick_rate` period has elapsed. -/
theorem tick_order_counterexample :
    tickTrace 250 alwaysOk 0 1 = [TickAction.send, TickAction.sleep 250] ∧
    specTickTrace 250 alwaysOk 0 1 = [TickAction.sleep 250, TickAction.send] ∧
    tickTrace 250 alwaysOk 0 1 ≠ specTickTrace 250 alwaysOk 0 1 := by
  decide

/-- C6 (amended): each iteration of the tick producer loop first
pushes one `Tick` and then sleeps `tick_rate` (so the first `Tick` is
emitted immediately, before any sleep), looping while sends succeed
and stopping with no further action once a send fails. -/
theorem tick_push_then_sleep (tickRate i fuel : Nat) :
    tickTrace tickRate alwaysOk i fuel =
      List.flatten (List.replicate fuel [TickAction.send, TickAction.sleep tickRate]) ∧
    tickTrace tickRate neverOk i fuel = [] := by
  constructor
  · induction fuel generalizing i with
    | zero => simp [tickTrace]
    | succ n ih => simp [tickTrace, alwaysOk, List.replicate_succ, ih]
  · cases fuel with
    | zero => simp [tickTrace]
    | succ n => simp [tickTrace, neverOk]

/-- Helper: a successful sequential prefetch resolves exactly the
listed channel ids, in list order. -/
theorem resolveChannels_ok_pointwise (env : FetchEnv) (ids : List ChannelId)
    (cs : List Channel) (h : resolveChannels env ids = .ok cs) :
    List.Forall₂ (fun cid c => env.fetchChannel cid = .ok c) ids cs := by
  induction ids generalizing cs with
  | nil =>
    simp [resolveChannels] at h
    simp [← h]
  | cons cid rest ih =>
    revert h
    cases hf : env.fetchChannel cid with
    | error e => simp [resolveChannels, hf]
    | ok c =>
      cases hr : resolveChannels env rest with
      | error e => simp [resolveChannels, hf, hr]
      | ok cs2 =>
        intro h
        simp only [resolveChannels, hf, hr, Except.ok.injEq] at h
        exact h ▸ List.Forall₂.cons hf (ih cs2 hr)

/-- C7: `AppState::new` resolves the target channel, derives its
server id, resolves the server, then resolves every listed channel
sequentially in list order; the first failing fetch makes it return
that error with no partial state, a successful run returns the fully
assembled state, and a target channel without a server hits the
`todo!()` (fails fast, unsupported). -/
theorem startup_resolution (env : FetchEnv) (cid : ChannelId) :
    (∀ e, env.fetchChannel cid = .error e →
        AppState.new env (.channel cid) = .err e) ∧
    (∀ c, env.fetchChannel cid = .ok c → c.serverId = none →
        AppState.new env (.channel cid) = .panicTodo) ∧
    (∀ c sid, env.fetchChannel cid = .ok c → c.serverId = some sid →
      (∀ e, env.fetchServer sid = .error e →
          AppState.new env (.channel cid) = .err e) ∧
      (∀ srv, env.fetchServer sid = .ok srv →
        (∀ e, resolveChannels env srv.channels = .error e →
            AppState.new env (.channel cid) = .err e) ∧
        (∀ chans, resolveChannels env srv.channels = .ok chans →
          List.Forall₂ (fun i c => env.fetchChannel i = .ok c) srv.channels chans ∧
          AppState.new env (.channel cid) =
            .ok ⟨.serverChannel ⟨[], .normal, [], srv, chans, c⟩, none⟩))) := by
  refine ⟨?_, ?_, ?_⟩
  · intro e h
    simp [AppState.new, h]
  · intro c h hs
    simp [AppState.new, h, hs]
  · intro c sid h hs
    refine ⟨?_, ?_⟩
    · intro e he
      simp [AppState.new, h, hs, he]
    · intro srv hsrv
      refine ⟨?_, ?_⟩
      · intro e he
        simp [AppState.new, h, hs, hsrv, he]
      · intro chans hch
        exact ⟨resolveChannels_ok_pointwise env srv.channels chans hch,
          by simp [AppState.new, h, hs, hsrv, hch]⟩

/-- Witness for `startup_resolution`: opening channel `c1` in the
concrete environment succeeds and builds the expected state. -/
theorem startup_resolution_witness :
    AppState.new wEnv (.channel "c1") =
      .ok ⟨.serverChannel ⟨[], .normal, [], wServer, [wChannel, wChannel2], wChannel⟩,
        none⟩ :=
  ((((startup_resolution wEnv "c1").2.2 wChannel "s1" rfl rfl).2 wServer rfl).2
    [wChannel, wChannel2] rfl).2

/-- C8: in the network producer loop, every pushed `ServerEvent` is
immediately preceded in the loop's action trace by the cache commit
of the same event, so no push can be observed before its commit. -/
theorem network_commit_before_push (sendOk : Nat → Bool) (i : Nat)
    (evs : List (Except RError ServerToClientEvent)) (j : Nat)
    (e : ServerToClientEvent)
    (h : (netTrace sendOk i evs)[j]? = some (NetAction.push e)) :
    0 < j ∧ (netTrace sendOk i evs)[j - 1]? = some (NetAction.commit e) := by
  induction evs generalizing i j with
  | nil => simp [netTrace] at h
  | cons hd rest ih =>
    cases hd with
    | error err => simp [netTrace] at h
    | ok ev =>
      by_cases hs : sendOk i
      · simp only [netTrace, hs, if_true] at h ⊢
        rcases j with _ | _ | n
        · simp at h
        · simp only [List.getElem?_cons_succ, List.getElem?_cons_zero,
            Option.some.injEq] at h
          injection h with h1
          subst h1
          exact ⟨Nat.one_pos, by simp⟩
        · have h2 : (netTrace sendOk (i + 1) rest)[n]? =
              some (NetAction.push e) := by simpa using h
          obtain ⟨hn, ht⟩ := ih (i + 1) n h2
          refine ⟨by omega, ?_⟩
          cases n with
          | zero => omega
          | succ m => simpa using ht
      · simp only [netTrace, hs, if_false] at h
        rcases j with _ | n
        · simp at h
        · simp at h

/-- The connection yields one successful `Message` pull. -/
def wConn : List (Except RError ServerToClientEvent) := [.ok (.message wMsg)]

/-- Witness for `network_commit_before_push`: in the one-event trace,
the push at position 1 is preceded by its commit at position 0. -/
theorem network_commit_before_push_witness :
    0 < 1 ∧
    (netTrace alwaysOk 0 wConn)[0]? = some (NetAction.commit (.message wMsg)) :=
  network_commit_before_push alwaysOk 0 wConn 1 (.message wMsg) (by decide)

end TuiRevolt
